import Mathlib

/-
  Formal model of the Gemini reply-resolution service
  (app/services/gemini.py): truncation heuristic, alias expansion,
  model discovery/catalog, candidate-list construction and the
  continuation/retry loop of get_gemini_reply.

  Python strings are modelled as `List Char` (a Python `str` is a
  sequence of code points); `Optional[str]` as `Option`.  The remote
  HTTP API is modelled as an oracle function, and the module-level
  lru_cache as explicit state.
-/

/-! ### Python string helpers -/

/-- The set of characters stripped by Python `str.strip()` /
    `str.rstrip()`, i.e. the characters for which `str.isspace()` is
    true (Unicode whitespace). -/
def pyIsSpace (c : Char) : Bool :=
  c = ' ' || c = '\t' || c = '\n' || c = '\r' ||
  c = Char.ofNat 0x0b || c = Char.ofNat 0x0c ||
  c = Char.ofNat 0x1c || c = Char.ofNat 0x1d ||
  c = Char.ofNat 0x1e || c = Char.ofNat 0x1f ||
  c = Char.ofNat 0x85 || c = Char.ofNat 0xa0 ||
  c = Char.ofNat 0x1680 ||
  (Char.ofNat 0x2000 ≤ c && c ≤ Char.ofNat 0x200a) ||
  c = Char.ofNat 0x2028 || c = Char.ofNat 0x2029 ||
  c = Char.ofNat 0x202f || c = Char.ofNat 0x205f ||
  c = Char.ofNat 0x3000

/-- The line-break characters recognised by Python `str.splitlines()`.
    Every line break is also whitespace in the sense of `pyIsSpace`. -/
def isLineBreak (c : Char) : Bool :=
  c = '\n' || c = '\r' || c = Char.ofNat 0x0b || c = Char.ofNat 0x0c ||
  c = Char.ofNat 0x1c || c = Char.ofNat 0x1d || c = Char.ofNat 0x1e ||
  c = Char.ofNat 0x85 || c = Char.ofNat 0x2028 || c = Char.ofNat 0x2029

/-- Python `str.lstrip()`. -/
def pyLstrip (l : List Char) : List Char := l.dropWhile pyIsSpace

/-- Python `str.rstrip()`. -/
def pyRstrip (l : List Char) : List Char :=
  (l.reverse.dropWhile pyIsSpace).reverse

/-- Python `str.strip()`. -/
def pyStrip (l : List Char) : List Char := pyLstrip (pyRstrip l)

/-- The last element of Python `s.splitlines()` for a non-empty `s`
    with no trailing line break: the suffix after the last line-break
    character. -/
def lastLine (l : List Char) : List Char :=
  (l.reverse.takeWhile (fun c => !isLineBreak c)).reverse

/-- Python `s.count("**")`: number of non-overlapping occurrences of
    `**`, scanned left to right. -/
def countDoubleStar : List Char → Nat
  | '*' :: '*' :: rest => countDoubleStar rest + 1
  | _ :: rest => countDoubleStar rest
  | [] => 0

/-- Python `len(s.split())`: number of maximal runs of
    non-whitespace characters.  The Boolean argument records whether
    the previous character belonged to a word. -/
def wordCountAux : List Char → Bool → Nat
  | [], _ => 0
  | c :: rest, inWord =>
    if pyIsSpace c then wordCountAux rest false
    else (if inWord then 0 else 1) + wordCountAux rest true

def wordCount (l : List Char) : Nat := wordCountAux l false

/-- Python `str.upper()` restricted to the ASCII range, which covers
    every finish reason the code compares against. -/
def pyUpper (l : List Char) : List Char := l.map Char.toUpper

/-! ### The open-list regular expression

`_OPEN_LIST_RE = re.compile(r"(?:^|\n)(?:[-*•]|(?:\d+\.))\s+[^\n]*$")`,
used with `.search`.  `$` matches at the end of the string or just
before a final newline; `\s` is modelled by `pyIsSpace` (Unicode
whitespace); `\d` is modelled by ASCII digits. -/

/-- Does `[^\n]*$` match the whole remainder `r`?  True iff `r`
    contains no newline except possibly as its final character. -/
def noNlToEnd (r : List Char) : Bool := !(r.dropLast.contains '\n')

/-- After at least one `\s` character has been consumed: succeed if
    `[^\n]*$` matches here, or consume one more whitespace character
    and continue (backtracking of `\s+`). -/
def wsTail : List Char → Bool
  | [] => true
  | c :: rest => noNlToEnd (c :: rest) || (pyIsSpace c && wsTail rest)

/-- Match `\s+[^\n]*$` against `l` (the text after a list marker). -/
def markerTail : List Char → Bool
  | [] => false
  | c :: rest => pyIsSpace c && wsTail rest

/-- Having consumed one or more digits of `\d+`, match `\.\s+[^\n]*$`
    (consuming further digits as needed). -/
def afterDigits : List Char → Bool
  | [] => false
  | c :: rest =>
    if c = '.' then markerTail rest
    else if c.isDigit then afterDigits rest
    else false

/-- Match `(?:[-*•]|(?:\d+\.))\s+[^\n]*$` at the head of `l`. -/
def matchesMarker : List Char → Bool
  | [] => false
  | c :: rest =>
    if c = '-' || c = '*' || c = '•' then markerTail rest
    else if c.isDigit then afterDigits rest
    else false

/-- Try the marker match just after each `\n` of `l` (the `\n` branch
    of `(?:^|\n)`, which consumes the newline). -/
def openListAfterNl : List Char → Bool
  | [] => false
  | c :: rest => (c = '\n' && matchesMarker rest) || openListAfterNl rest

/-- `_OPEN_LIST_RE.search(l)` succeeds. -/
def openListMatch (l : List Char) : Bool :=
  matchesMarker l || openListAfterNl l

/-! ### Truncation heuristic -/

/-- `last_line[-1] not in (".", "!", "?", "…", ")", "]", '"', "”", "'")`
    — the sentence-terminating characters. -/
def TERMINATORS : List Char :=
  ['.', '!', '?', Char.ofNat 0x2026, ')', ']', '"', Char.ofNat 0x201d,
   Char.ofNat 39]

/-- `stripped.endswith(("-", "•", ":", ";", ","))` — the dangling
    punctuation characters. -/
def DANGLING : List Char := ['-', Char.ofNat 0x2022, ':', ';', ',']

/-- `_looks_like_truncated_markdown` from app/services/gemini.py
    (`stripped` is `pyRstrip text`, `last_line` is
    `stripped.splitlines()[-1].strip()`, written out). -/
def looks_like_truncated_markdown (text : List Char) : Bool :=
  if (pyRstrip text).isEmpty then false
  else if countDoubleStar (pyRstrip text) % 2 = 1 then true
  else if (pyRstrip text).count (Char.ofNat 96) % 2 = 1 then true
  else if openListMatch (pyRstrip text) then true
  else if (match (pyRstrip text).getLast? with
           | some c => DANGLING.contains c
           | none => false) then true
  else
    match (pyStrip (lastLine (pyRstrip text))).getLast? with
    | none => false
    | some c =>
      if !(TERMINATORS.contains c) &&
          4 ≤ wordCount (pyStrip (lastLine (pyRstrip text))) then true
      else false

/-- `_normalize_finish_reason`: strip, then upper-case; empty/absent
    becomes `none`. -/
def normalize_finish_reason : Option (List Char) → Option (List Char)
  | none => none
  | some v =>
    let v' := pyStrip v
    if v'.isEmpty then none else some (pyUpper v')

/-- `_needs_continuation` from app/services/gemini.py
    (`normalized` is `normalize_finish_reason finish_reason`,
    written out). -/
def needs_continuation (text : List Char) (finish_reason : Option (List Char)) : Bool :=
  if normalize_finish_reason finish_reason = some "MAX_TOKENS".data then true
  else if (match normalize_finish_reason finish_reason with
           | some r => decide (r ≠ "STOP".data) && decide (r ≠ "MAX_TOKENS".data)
           | none => false) then false
  else if (pyStrip text).length < 80 then false
  else looks_like_truncated_markdown text

example : needs_continuation "".data (some "MAX_TOKENS".data) = true := by decide
example : needs_continuation "hola".data (some "STOP".data) = false := by decide

/-! ### Alias graph and breadth-first expansion -/

/-- `_ALIAS_PAIRS` from app/services/gemini.py. -/
def ALIAS_PAIRS : List (String × String) :=
  [("gemini-1.5-pro-latest", "gemini-pro-latest"),
   ("gemini-1.5-pro-latest", "gemini-2.5-pro"),
   ("gemini-1.5-pro", "gemini-pro-latest"),
   ("gemini-1.5-pro", "gemini-2.5-pro"),
   ("gemini-pro", "gemini-pro-latest"),
   ("gemini-1.0-pro", "gemini-pro-latest"),
   ("gemini-1.0-pro-latest", "gemini-pro-latest"),
   ("gemini-1.5-flash-latest", "gemini-flash-latest"),
   ("gemini-1.5-flash-latest", "gemini-2.5-flash"),
   ("gemini-1.5-flash", "gemini-flash-latest"),
   ("gemini-1.5-flash", "gemini-2.5-flash"),
   ("gemini-flash-latest", "gemini-2.5-flash"),
   ("gemini-1.5-flash-8b", "gemini-2.0-flash-lite"),
   ("gemini-1.5-flash-8b", "gemini-2.5-flash-lite"),
   ("gemini-1.5-flash-8b-latest", "gemini-2.0-flash-lite"),
   ("gemini-1.5-flash-8b-latest", "gemini-2.5-flash-lite"),
   ("gemini-2.0-flash-lite", "gemini-2.5-flash-lite")]

/-- `MODEL_ALIAS_GRAPH[name]`: the set of alias neighbours of `name`,
    built by folding both directions of every pair into a defaultdict
    of sets.  Set members are listed in insertion order (CPython set
    iteration order is unspecified; the insertion order is one
    faithful realisation). -/
def aliasNeighbors (name : String) : List String :=
  (ALIAS_PAIRS.foldl
    (fun acc p =>
      let acc' := if p.1 = name && !(acc.contains p.2) then acc ++ [p.2] else acc
      if p.2 = name && !(acc'.contains p.1) then acc' ++ [p.1] else acc')
    [])

/-- The breadth-first traversal inside `_expand_aliases`: pop the head
    of the queue, skip it if seen, otherwise record it and enqueue its
    unseen neighbours.  The fuel bounds the number of pops; the Python
    loop pops at most `1 + 2 * |_ALIAS_PAIRS|  = 35` times (one initial
    enqueue plus at most the total degree of the graph), so fuel `64`
    never runs out and the model agrees with the Python loop on every
    input. -/
def expandAliasesBfs : Nat → List String → List String → List String → List String
  | 0, _, _, ordered => ordered
  | _ + 1, [], _, ordered => ordered
  | fuel + 1, current :: rest, seen, ordered =>
    if seen.contains current then expandAliasesBfs fuel rest seen ordered
    else
      expandAliasesBfs fuel
        (rest ++ (aliasNeighbors current).filter
          (fun a => !((current :: seen).contains a)))
        (current :: seen) (ordered ++ [current])

/-- `_expand_aliases` from app/services/gemini.py (`if not name` is
    true for both `None` and the empty string). -/
def expand_aliases (name : Option String) : List String :=
  match name with
  | none => []
  | some n => if n = "" then [] else expandAliasesBfs 64 [n] [] []

example :
    expand_aliases (some "gemini-pro") = ["gemini-pro", "gemini-pro-latest",
      "gemini-1.5-pro-latest", "gemini-1.5-pro", "gemini-1.0-pro",
      "gemini-1.0-pro-latest", "gemini-2.5-pro"] := by decide

/-! ### Candidate-list construction -/

/-- `DEFAULT_MODEL_ORDER` from app/services/gemini.py. -/
def DEFAULT_MODEL_ORDER : List String :=
  ["gemini-2.5-flash",
   "gemini-flash-latest",
   "gemini-2.5-flash-lite",
   "gemini-2.0-flash",
   "gemini-2.0-flash-lite",
   "gemini-2.5-pro",
   "gemini-pro-latest",
   "gemini-1.5-pro-latest",
   "gemini-1.5-flash-latest",
   "gemini-1.5-flash-8b-latest"]

/-- The catalog `_available_models` returns: a Python dict
    `short_name -> api_version`, modelled as an association list in
    insertion order. -/
abbrev Catalog := List (String × String)

/-- `dict.get k` — the value of the first (unique) binding of `k`. -/
def lookupC : Catalog → String → Option String
  | [], _ => none
  | kv :: rest, k => if kv.1 = k then some kv.2 else lookupC rest k

/-- The distinct keys of the catalog, in insertion order (a Python
    dict's keys are distinct; the fold canonicalises the association
    list representation). -/
def availKeys (c : Catalog) : List String :=
  c.foldl (fun acc kv => if acc.contains kv.1 then acc else acc ++ [kv.1]) []

/-- Append `c` unless already present: one step of first-occurrence
    de-duplication (`if candidate in seen: continue` with
    `seen = set(ordered)`, which the code keeps in lock-step with
    `ordered`). -/
def dedupAppend (ord : List String) (c : String) : List String :=
  if ord.contains c then ord else ord ++ [c]

/-- One candidate inside `add_with_aliases`: skip names missing from
    a non-empty catalog, then de-duplicate. -/
def availFilterStep (names : List String) (ord : List String) (c : String) : List String :=
  if !names.isEmpty && !(names.contains c) then ord else dedupAppend ord c

/-- `add_with_aliases` inside `_build_candidate_list`. -/
def add_with_aliases (names : List String) (ord : List String)
    (name : Option String) : List String :=
  (expand_aliases name).foldl (availFilterStep names) ord

/-- The three filtered phases of `_build_candidate_list`: preferred,
    then default, then the built-in fallback order. -/
def mainPhase (preferred default_model : Option String) (names : List String) : List String :=
  DEFAULT_MODEL_ORDER.foldl (fun ord f => add_with_aliases names ord (some f))
    (add_with_aliases names (add_with_aliases names [] preferred) default_model)

/-- Lexicographic comparison of code-point sequences (Python string
    `<=`). -/
def charsLe : List Char → List Char → Bool
  | [], _ => true
  | _ :: _, [] => false
  | a :: as, b :: bs =>
    if a = b then charsLe as bs else decide (a.toNat < b.toNat)

/-- Insertion sort by the lexicographic string order (Python
    `sorted`; stability is irrelevant on distinct keys). -/
def insertStr (x : String) : List String → List String
  | [] => [x]
  | y :: ys => if charsLe x.data y.data then x :: y :: ys else y :: insertStr x ys

def sortStrings (l : List String) : List String := l.foldr insertStr []

/-- `if not ordered and available_names:` — when the filtered phases
    produced nothing but the catalog is non-empty, fall back to all
    catalog names sorted lexicographically (still skipping names seen
    so far, which at this point are none). -/
def sortedCatalogPhase (names : List String) (ord : List String) : List String :=
  if ord.isEmpty && !names.isEmpty then (sortStrings names).foldl dedupAppend ord
  else ord

/-- The last-resort `if not ordered:` block: every fallback's alias
    expansion, unfiltered. -/
def fallbackPhase (ord : List String) : List String :=
  DEFAULT_MODEL_ORDER.foldl
    (fun o f => (expand_aliases (some f)).foldl dedupAppend o) ord

def finalPhase (ord : List String) : List String :=
  if ord.isEmpty then fallbackPhase ord else ord

/-- `_build_candidate_list` from app/services/gemini.py. -/
def build_candidate_list (preferred default_model : Option String)
    (available : Catalog) : List String :=
  finalPhase (sortedCatalogPhase (availKeys available)
    (mainPhase preferred default_model (availKeys available)))

example :
    build_candidate_list (some "gemini-pro") none
      [("gemini-2.5-pro", "v1beta"), ("gemini-2.5-flash", "v1")] =
      ["gemini-2.5-pro", "gemini-2.5-flash"] := by decide

example :
    build_candidate_list none none [("zeta", "v1"), ("alfa", "v1beta")] =
      ["alfa", "zeta"] := by decide

/-! ### Model discovery -/

/-- `_version_candidates`: the stripped hint (when truthy) followed by
    `v1beta` and `v1`, keeping non-empty first occurrences. -/
def version_candidates (version_hint : Option String) : List String :=
  let ordered :=
    (match version_hint with
     | some h => if h = "" then [] else [String.mk (pyStrip h.data)]
     | none => []) ++ ["v1beta", "v1"]
  ordered.foldl (fun res v => if v ≠ "" && !(res.contains v) then res ++ [v] else res) []

/-- One entry of the ListModels JSON response:
    `{name, supportedGenerationMethods}` (an absent or null method
    list is read as `[]` by `item.get(...) or []`). -/
structure ModelItem where
  name : Option String
  supportedGenerationMethods : List String
deriving DecidableEq, Repr

/-- `name.split("/", 1)[1]`: everything after the first `/`. -/
def afterFirstSlash : List Char → List Char
  | [] => []
  | c :: rest => if c = '/' then rest else afterFirstSlash rest

/-- The short name recorded in the catalog:
    `name.split("/", 1)[1] if "/" in name else name`. -/
def shortNameOf (name : String) : String :=
  if name.data.contains '/' then String.mk (afterFirstSlash name.data) else name

/-- `dict.setdefault k v`: keep an existing binding of `k`, otherwise
    append `(k, v)`. -/
def setdefault (avail : Catalog) (k v : String) : Catalog :=
  if avail.any (fun kv => kv.1 = k) then avail else avail ++ [(k, v)]

/-- One iteration of the `for item in data.get("models", [])` loop of
    `_available_models`: skip items without `generateContent` support
    or without a truthy name, otherwise `setdefault` the short name. -/
def recordStep (avail : Catalog) (version : String) (item : ModelItem) : Catalog :=
  if !(item.supportedGenerationMethods.contains "generateContent") then avail
  else
    match item.name with
    | none => avail
    | some n => if n = "" then avail else setdefault avail (shortNameOf n) version

/-- The per-version loop of `_available_models`: record every item
    that supports `generateContent` and has a truthy name, under its
    short name, never overwriting an earlier version. -/
def recordModels (avail : Catalog) (version : String) : List ModelItem → Catalog
  | [] => avail
  | item :: rest => recordModels (recordStep avail version item) version rest

/-- The discovery loop of `_available_models`, with the network
    modelled by `responses`: `responses v = none` is a request failure
    or non-ok status for version `v` (logged and skipped), and
    `some items` the decoded model list of a successful response. -/
def available_models_pure (responses : String → Option (List ModelItem))
    (version_hint : Option String) : Catalog :=
  (version_candidates version_hint).foldl
    (fun a v =>
      match responses v with
      | none => a
      | some items => recordModels a v items)
    []

example :
    available_models_pure
      (fun v => if v = "v1beta" then
          some [⟨some "models/gemini-2.5-pro", ["generateContent"]⟩,
                ⟨some "models/embed", ["embedContent"]⟩]
        else none)
      none = [("gemini-2.5-pro", "v1beta")] := by decide

/-! ### The lru_cache on `_available_models`

`_available_models` is decorated with `functools.lru_cache`, keyed by
`(api_key, base_endpoint, version_hint)`, and returns the cached dict
object itself.  The cache is modelled as explicit state; a hit returns
the stored catalog and issues no request, a miss runs the discovery
loop (one GET per version candidate) and stores its result.
`get_gemini_reply`'s `available.pop(model, None)` mutates that shared
dict, which `cachePop` renders as an update of the stored entry. -/

structure DiscoveryKey where
  api_key : String
  base_endpoint : String
  version_hint : Option String
deriving DecidableEq, Repr

abbrev Cache := List (DiscoveryKey × Catalog)

def cacheLookup : Cache → DiscoveryKey → Option Catalog
  | [], _ => none
  | e :: rest, key => if e.1 = key then some e.2 else cacheLookup rest key

/-- `_available_models` with its lru_cache made explicit.  Returns
    the catalog, the new cache state, and the number of ListModels
    GET requests issued (one per version candidate on a miss, none on
    a hit). -/
def available_models_cached
    (responses : DiscoveryKey → String → Option (List ModelItem))
    (cache : Cache) (key : DiscoveryKey) : Catalog × Cache × Nat :=
  match cacheLookup cache key with
  | some cat => (cat, cache, 0)
  | none =>
    let cat := available_models_pure (responses key) key.version_hint
    (cat, (key, cat) :: cache, (version_candidates key.version_hint).length)

/-- `available.pop(model, None)` in `get_gemini_reply`, seen from the
    cache: the popped dict is the object stored in the lru_cache, so
    the stored entry loses the binding too. -/
def cachePop (cache : Cache) (key : DiscoveryKey) (model : String) : Cache :=
  cache.map (fun e =>
    if e.1 = key then (e.1, e.2.filter (fun kv => kv.1 ≠ model)) else e)

/-! ### Specification-side definitions used to state the claims -/

/-- First-occurrence de-duplication of a list of names. -/
def dedupFirst (l : List String) : List String := l.foldl dedupAppend []

/-- Filter against the catalog keys only when the catalog is
    non-empty (`if available_names and candidate not in
    available_names`). -/
def maybeFilter (names : List String) (l : List String) : List String :=
  if names.isEmpty then l else l.filter (fun c => names.contains c)

/-- The candidate names in source order: the preferred name's alias
    expansion, then the default's, then the expansion of each
    built-in fallback. -/
def sourceSeq (preferred default_model : Option String) : List String :=
  expand_aliases preferred ++ expand_aliases default_model ++
    DEFAULT_MODEL_ORDER.flatMap (fun f => expand_aliases (some f))

/-- The source sequence filtered against a non-empty catalog. -/
def filteredSource (preferred default_model : Option String)
    (names : List String) : List String :=
  maybeFilter names (sourceSeq preferred default_model)

/-- Modelled from the spec's words (claim C4): the substring after
    the LAST `/` of a name — to be compared with `shortNameOf`, which
    the code computes with `split("/", 1)`. -/
def specAfterLastSlash (name : String) : String :=
  String.mk ((name.data.reverse.takeWhile (fun c => c ≠ '/')).reverse)

example : specAfterLastSlash "models/tuned/abc" = "abc" := by decide
example : shortNameOf "models/tuned/abc" = "tuned/abc" := by decide

/-! ### The reply resolver -/

/-- One conversation turn `{role, parts: [{text}, ...]}`. -/
structure Turn where
  role : String
  parts : List String
deriving DecidableEq, Repr

/-- A decoded `generateContent` response. -/
structure GeminiCallResult where
  text : String
  finish_reason : Option String
deriving DecidableEq, Repr

/-- `GeminiModelNotFound` (HTTP 404 for the model) and
    `GeminiAPIError` (any other failure of `_call_gemini_raw`). -/
inductive GemErr
  | modelNotFound (msg : String)
  | apiError (msg : String)
deriving DecidableEq, Repr

/-- The request `_call_gemini_raw` sends. -/
structure GenRequest where
  version : String
  model : String
  system_prompt : String
  contents : List Turn
  max_output_tokens : Nat
deriving DecidableEq, Repr

/-- The configuration fields `get_gemini_reply` reads
    (`gemini_api_key` is `None` when no key variant is set). -/
structure Settings where
  gemini_api_key : Option String
  gemini_api_base : String
  gemini_api_version_hint : Option String
  gemini_chat_model : Option String
  gemini_default_model : Option String
  gemini_max_output_tokens : Nat
  gemini_max_auto_continuations : Nat
  chat_response_guideline : Option String
deriving Repr

def CONTINUATION_PROMPT : String :=
  "Continúa exactamente donde quedaste, sin repetir nada anterior. " ++
  "Mantén el formato y completa la idea que estaba en curso."

/-- `_initial_contents`. -/
def initial_contents (message : String) : List Turn :=
  [⟨"user", [message]⟩]

/-- `_continuation_contents`. -/
def continuation_contents (original_message accumulated_response : String) : List Turn :=
  [⟨"user", [original_message]⟩,
   ⟨"model", [accumulated_response]⟩,
   ⟨"user", [CONTINUATION_PROMPT]⟩]

/-- `_compose_system_prompt` (`if not extra` is true for `None` and
    the empty string). -/
def compose_system_prompt (base_prompt : String) (extra : Option String) : String :=
  match extra with
  | none => base_prompt
  | some e =>
    if e = "" then base_prompt
    else
      let b := String.mk (pyRstrip base_prompt.data)
      let e' := String.mk (pyStrip e.data)
      if b = "" then e' else b ++ "\n\n" ++ e'

/-- Python `s.strip()` on a `String`. -/
def stripS (s : String) : String := String.mk (pyStrip s.data)

/-- The tail of one loop iteration after a successful provider call:
    append the text, return the trimmed accumulation if the heuristic
    is satisfied or the budget is spent
    (`attempt + 1 > max_auto_continuations` is `remaining = 0` here),
    otherwise take the result of the next iteration (`recres`),
    counting this iteration's call. -/
def attemptStep (result : GeminiCallResult) (chunks : List String)
    (remaining : Nat) (recres : Option (Except GemErr String) × Nat) :
    Option (Except GemErr String) × Nat :=
  if !(needs_continuation (String.join (chunks ++ [result.text])).data
        (result.finish_reason.map String.data)) then
    (some (.ok (stripS (String.join (chunks ++ [result.text])))), 1)
  else if remaining = 0 then
    (some (.ok (stripS (String.join (chunks ++ [result.text])))), 1)
  else
    Prod.map id (· + 1) recres

/-- The inner `for attempt in range(max_auto_continuations + 1)` loop
    of `get_gemini_reply` for one candidate model, with
    `_call_gemini_raw` abstracted by `provider`.  `remaining` is the
    number of loop iterations still permitted (initially
    `max_auto_continuations + 1`, so the `0` case — the loop body
    never running and control falling through to the next candidate —
    is unreachable; `none` renders that fall-through).  Returns the
    outcome and the number of generateContent calls made. -/
def attemptLoop (provider : GenRequest → Except GemErr GeminiCallResult)
    (version model system_prompt message : String) (max_output_tokens : Nat) :
    List Turn → List String → Nat → Option (Except GemErr String) × Nat
  | _, _, 0 => (none, 0)
  | contents, chunks, remaining + 1 =>
    match provider ⟨version, model, system_prompt, contents, max_output_tokens⟩ with
    | .error e => (some (.error e), 1)
    | .ok result =>
      attemptStep result chunks remaining
        (attemptLoop provider version model system_prompt message
          max_output_tokens
          (continuation_contents message (String.join (chunks ++ [result.text])))
          (chunks ++ [result.text]) remaining)

/-- The resolver outcome: a reply, or one of the two HTTPException
    classes `get_gemini_reply` raises. -/
inductive ResolverOutcome
  | reply (text : String)
  | serviceUnavailable (detail : String)
  | badGateway (last_error : Option GemErr)
deriving DecidableEq, Repr

def DETAIL_NO_KEY : String :=
  "El asistente no está disponible por falta de configuración."

def DETAIL_NO_MODELS : String :=
  "No hay modelos configurados para el asistente."

/-- `version = available.get(model) or next(iter(version_candidates), "v1beta")`. -/
def versionFor (available : Catalog) (hint : Option String) (model : String) : String :=
  match lookupC available model with
  | some v => if v = "" then (version_candidates hint).headD "v1beta" else v
  | none => (version_candidates hint).headD "v1beta"

/-- `for model in models:` — try each candidate once, threading the
    (shared, mutated) catalog and the last error; count generate
    calls.  A `modelNotFound` pops the model from the catalog before
    moving on; an `apiError` just moves on; a fall-through (`none`,
    unreachable) moves on without touching `last_error`. -/
def tryModels (provider : GenRequest → Except GemErr GeminiCallResult)
    (s : Settings) (system_prompt message : String) :
    List String → Catalog → Option GemErr → ResolverOutcome × Nat
  | [], _, lastErr => (.badGateway lastErr, 0)
  | model :: rest, avail, lastErr =>
    match attemptLoop provider (versionFor avail s.gemini_api_version_hint model)
      model system_prompt message s.gemini_max_output_tokens
      (initial_contents message) [] (s.gemini_max_auto_continuations + 1) with
    | (some (.ok t), n) => (.reply t, n)
    | (some (.error (.modelNotFound msg0)), n) =>
      let r' := tryModels provider s system_prompt message rest
        (avail.filter (fun kv => kv.1 ≠ model)) (some (.modelNotFound msg0))
      (r'.1, n + r'.2)
    | (some (.error (.apiError msg0)), n) =>
      let r' := tryModels provider s system_prompt message rest avail
        (some (.apiError msg0))
      (r'.1, n + r'.2)
    | (none, n) =>
      let r' := tryModels provider s system_prompt message rest avail lastErr
      (r'.1, n + r'.2)

/-- The body of `get_gemini_reply` once a truthy API key `k` is in
    hand: discovery, candidate construction, the empty-candidates
    503, then the candidate loop. -/
def get_gemini_reply_keyed
    (discover : String → String → Option String → Catalog × Nat)
    (provider : GenRequest → Except GemErr GeminiCallResult)
    (s : Settings) (system_prompt message k : String) : ResolverOutcome × Nat :=
  if (build_candidate_list s.gemini_chat_model s.gemini_default_model
      (discover k s.gemini_api_base s.gemini_api_version_hint).1).isEmpty then
    (.serviceUnavailable DETAIL_NO_MODELS,
     (discover k s.gemini_api_base s.gemini_api_version_hint).2)
  else
    ((tryModels provider s
        (compose_system_prompt system_prompt s.chat_response_guideline) message
        (build_candidate_list s.gemini_chat_model s.gemini_default_model
          (discover k s.gemini_api_base s.gemini_api_version_hint).1)
        (discover k s.gemini_api_base s.gemini_api_version_hint).1 none).1,
     (discover k s.gemini_api_base s.gemini_api_version_hint).2 +
       (tryModels provider s
         (compose_system_prompt system_prompt s.chat_response_guideline) message
         (build_candidate_list s.gemini_chat_model s.gemini_default_model
           (discover k s.gemini_api_base s.gemini_api_version_hint).1)
         (discover k s.gemini_api_base s.gemini_api_version_hint).1 none).2)

/-- `get_gemini_reply`, with the ListModels network modelled by
    `discover` (the catalog plus how many GET requests it took) and
    generateContent by `provider`.  Returns the outcome and the total
    number of network calls (discovery GETs + generate POSTs). -/
def get_gemini_reply
    (discover : String → String → Option String → Catalog × Nat)
    (provider : GenRequest → Except GemErr GeminiCallResult)
    (s : Settings) (system_prompt message : String) : ResolverOutcome × Nat :=
  match s.gemini_api_key with
  | none => (.serviceUnavailable DETAIL_NO_KEY, 0)
  | some k =>
    if k = "" then (.serviceUnavailable DETAIL_NO_KEY, 0)
    else get_gemini_reply_keyed discover provider s system_prompt message k




/-! ## Theorems -/

/-! ### Claim C1 -/

/-- Claim C1, as stated, is false: a `MAX_TOKENS` finish reason makes
    `_needs_continuation` return true before the short-text check is
    reached, already for the empty text (trimmed length 0 < 80). -/
theorem c1_counterexample :
    (pyStrip "".data).length < 80 ∧
      needs_continuation "".data (some "MAX_TOKENS".data) = true := by
  decide

/-- Claim C1 (amended): for every text of trimmed length < 80 and
    every finish reason whose normalisation is not `MAX_TOKENS`,
    `_needs_continuation` returns false. -/
theorem c1_short_text_no_continuation (text : List Char) (reason : Option (List Char))
    (h1 : normalize_finish_reason reason ≠ some "MAX_TOKENS".data)
    (h2 : (pyStrip text).length < 80) :
    needs_continuation text reason = false := by
  cases hn : normalize_finish_reason reason with
  | none => simp [needs_continuation, hn, h2]
  | some r =>
    rw [hn] at h1
    by_cases hr : r = "STOP".data
    · subst hr
      simp [needs_continuation, hn, h2]
    · have hMT : r ≠ "MAX_TOKENS".data := fun e => h1 (by rw [e])
      simp [needs_continuation, hn, hr, hMT]

/-- Witness for C1 (amended) at text `"hola"`, reason `STOP`. -/
theorem c1_short_text_no_continuation_witness :
    needs_continuation "hola".data (some "STOP".data) = false :=
  c1_short_text_no_continuation "hola".data (some "STOP".data)
    (by decide) (by decide)

/-! ### Claim C6 -/

/-- Claim C6: alias expansion is symmetric — for every pair `(A, B)`
    of the alias table, expanding `A` yields `B` and expanding `B`
    yields `A`. -/
theorem alias_expansion_symmetric :
    ∀ p ∈ ALIAS_PAIRS,
      p.2 ∈ expand_aliases (some p.1) ∧ p.1 ∈ expand_aliases (some p.2) := by
  decide

/-- Witness for C6 at the pair `("gemini-pro", "gemini-pro-latest")`. -/
theorem alias_expansion_symmetric_witness :
    "gemini-pro-latest" ∈ expand_aliases (some "gemini-pro") ∧
      "gemini-pro" ∈ expand_aliases (some "gemini-pro-latest") :=
  alias_expansion_symmetric ("gemini-pro", "gemini-pro-latest") (by decide)

/-! ### Claim C8 -/

/-- Claim C8: with no API key configured (absent or empty),
    `get_gemini_reply` fails with the 503 service-unavailable
    condition and issues zero network calls — neither discovery nor
    generation is consulted. -/
theorem get_gemini_reply_no_key
    (discover : String → String → Option String → Catalog × Nat)
    (provider : GenRequest → Except GemErr GeminiCallResult)
    (s : Settings) (system_prompt message : String)
    (h : s.gemini_api_key = none ∨ s.gemini_api_key = some "") :
    get_gemini_reply discover provider s system_prompt message =
      (.serviceUnavailable DETAIL_NO_KEY, 0) := by
  unfold get_gemini_reply
  rcases h with h | h
  · rw [h]
  · rw [h]; rfl

/-- Witness for C8: a concrete settings record without a key, facing
    oracles that would report calls if consulted. -/
theorem get_gemini_reply_no_key_witness :
    get_gemini_reply (fun _ _ _ => ([("gemini-2.5-flash", "v1beta")], 2))
      (fun _ => .error (.apiError "x"))
      ⟨none, "https://g", none, none, none, 100, 3, none⟩ "sp" "hola" =
      (.serviceUnavailable DETAIL_NO_KEY, 0) :=
  get_gemini_reply_no_key _ _ _ _ _ (Or.inl rfl)

/-! ### Claim C3 -/

/-- Popping a model from the catalog object stored under `key` is
    visible to the next cache lookup for `key`. -/
theorem cacheLookup_cachePop (cache : Cache) (key : DiscoveryKey)
    (model : String) (cat : Catalog)
    (h : cacheLookup cache key = some cat) :
    cacheLookup (cachePop cache key model) key =
      some (cat.filter (fun kv => kv.1 ≠ model)) := by
  induction cache with
  | nil => simp [cacheLookup] at h
  | cons e rest ih =>
    by_cases he : e.1 = key
    · simp [cacheLookup, cachePop, he] at h ⊢
      rw [h]
    · simp [cacheLookup, cachePop, he] at h ⊢
      simpa [cachePop] using ih h

/-- Claim C3, as stated, is false.  Concrete run: discovery caches
    `{m1, m2}` under a key; resolution hits a 404 for `m1` and pops it
    (`available.pop`), mutating the dict stored in the lru_cache; the
    next `_available_models` call with the same key is a cache hit
    (zero provider queries) and no longer contains `m1` — the removed
    model is not rediscovered. -/
theorem c3_counterexample :
    (let responses : DiscoveryKey → String → Option (List ModelItem) :=
        fun _ v =>
          if v = "v1beta" then
            some [⟨some "models/m1", ["generateContent"]⟩,
                  ⟨some "models/m2", ["generateContent"]⟩]
          else none
     let key : DiscoveryKey := ⟨"k", "https://g", none⟩
     let first := available_models_cached responses [] key
     let afterPop := cachePop first.2.1 key "m1"
     let second := available_models_cached responses afterPop key
     lookupC first.1 "m1" = some "v1beta" ∧
       second.2.2 = 0 ∧ lookupC second.1 "m1" = none) := by
  decide

/-- Claim C3 (amended): the `available.pop(model, None)` of a
    not-found model mutates the catalog dict shared through the
    lru_cache, so a later `_available_models` call with the same
    `(api_key, base_endpoint, version_hint)` key issues no provider
    query and returns the catalog WITHOUT the removed model. -/
theorem c3_pop_is_shared (responses : DiscoveryKey → String → Option (List ModelItem))
    (cache : Cache) (key : DiscoveryKey) (model : String) (cat : Catalog)
    (h : cacheLookup cache key = some cat) :
    available_models_cached responses (cachePop cache key model) key =
      (cat.filter (fun kv => kv.1 ≠ model), cachePop cache key model, 0) := by
  unfold available_models_cached
  rw [cacheLookup_cachePop cache key model cat h]

/-- Witness for C3 (amended) on a one-entry cache. -/
theorem c3_pop_is_shared_witness :
    available_models_cached (fun _ _ => none)
      (cachePop [(⟨"k", "b", none⟩, [("m1", "v1beta"), ("m2", "v1beta")])]
        ⟨"k", "b", none⟩ "m1") ⟨"k", "b", none⟩ =
      ([("m1", "v1beta"), ("m2", "v1beta")].filter (fun kv => kv.1 ≠ "m1"),
       cachePop [(⟨"k", "b", none⟩, [("m1", "v1beta"), ("m2", "v1beta")])]
         ⟨"k", "b", none⟩ "m1", 0) :=
  c3_pop_is_shared _ _ _ _ _ (by decide)

/-! ### Claim C4 -/

/-- Appending a binding for a different key does not change a lookup. -/
theorem lookupC_append_singleton (avail : Catalog) (k v k' : String)
    (hk : k ≠ k') : lookupC (avail ++ [(k, v)]) k' = lookupC avail k' := by
  induction avail with
  | nil => simp [lookupC, hk]
  | cons kv rest ih => by_cases h1 : kv.1 = k' <;> simp [lookupC, h1, ih]

/-- A successful lookup is unchanged by appending anything. -/
theorem lookupC_append_of_ne_none (a b : Catalog) (k : String)
    (h : lookupC a k ≠ none) : lookupC (a ++ b) k = lookupC a k := by
  induction a with
  | nil => exact absurd rfl h
  | cons kv rest ih =>
    by_cases h1 : kv.1 = k
    · simp [lookupC, h1]
    · simp [lookupC, h1] at h ⊢
      exact ih h

/-- `setdefault` never changes an existing binding. -/
theorem lookupC_setdefault_preserve (avail : Catalog) (k v k' : String)
    (h : lookupC avail k' ≠ none) :
    lookupC (setdefault avail k v) k' = lookupC avail k' := by
  unfold setdefault
  split_ifs
  · rfl
  · exact lookupC_append_of_ne_none _ _ _ h

/-- A key bound after `setdefault` was bound before, or is the key
    that was set. -/
theorem lookupC_setdefault_cases (avail : Catalog) (k v k' : String)
    (h : lookupC (setdefault avail k v) k' ≠ none) :
    lookupC avail k' ≠ none ∨ k' = k := by
  unfold setdefault at h
  split_ifs at h
  · exact Or.inl h
  · by_cases hk : k' = k
    · exact Or.inr hk
    · rw [lookupC_append_singleton _ _ _ _ (fun e => hk e.symm)] at h
      exact Or.inl h

/-- `recordStep` never changes an existing binding. -/
theorem lookupC_recordStep_preserve (avail : Catalog) (version : String)
    (item : ModelItem) (k : String) (h : lookupC avail k ≠ none) :
    lookupC (recordStep avail version item) k = lookupC avail k := by
  unfold recordStep
  split
  · rfl
  · split
    · rfl
    · split
      · rfl
      · exact lookupC_setdefault_preserve _ _ _ _ h

/-- A key bound after `recordStep` was bound before, or is the short
    name (text after the FIRST `/`) of the item just processed. -/
theorem recordStep_new_key (avail : Catalog) (version : String)
    (item : ModelItem) (k : String)
    (h : lookupC (recordStep avail version item) k ≠ none) :
    lookupC avail k ≠ none ∨
      ∃ n, item.name = some n ∧
        item.supportedGenerationMethods.contains "generateContent" = true ∧
        n ≠ "" ∧ k = shortNameOf n := by
  unfold recordStep at h
  by_cases hg : item.supportedGenerationMethods.contains "generateContent"
  · rw [hg] at h
    cases hn : item.name with
    | none =>
      rw [hn] at h
      exact Or.inl h
    | some n =>
      rw [hn] at h
      by_cases hne : n = ""
      · simp [hne] at h
        exact Or.inl h
      · simp only [hne, Bool.not_true, Bool.false_eq_true, if_false, ite_false] at h
        rcases lookupC_setdefault_cases _ _ _ _ h with h' | h'
        · exact Or.inl h'
        · exact Or.inr ⟨n, rfl, hg, hne, h'⟩
  · simp only [Bool.not_eq_true] at hg
    rw [hg] at h
    exact Or.inl h

/-- The per-version recording loop never changes an existing binding
    (first-seen version wins). -/
theorem recordModels_preserve (version : String) :
    ∀ (items : List ModelItem) (avail : Catalog) (k : String),
      lookupC avail k ≠ none →
      lookupC (recordModels avail version items) k = lookupC avail k := by
  intro items
  induction items with
  | nil => intro avail k _; rfl
  | cons item rest ih =>
    intro avail k h
    have h1 := lookupC_recordStep_preserve avail version item k h
    have h2 : lookupC (recordStep avail version item) k ≠ none := by
      rw [h1]; exact h
    show lookupC (recordModels (recordStep avail version item) version rest) k =
      lookupC avail k
    rw [ih _ _ h2, h1]

/-- Every key the recording loop adds is the short name — the text
    after the FIRST `/` — of some eligible item. -/
theorem recordModels_new_key (version : String) :
    ∀ (items : List ModelItem) (avail : Catalog) (k : String),
      lookupC (recordModels avail version items) k ≠ none →
      lookupC avail k ≠ none ∨
        ∃ item ∈ items, ∃ n, item.name = some n ∧
          item.supportedGenerationMethods.contains "generateContent" = true ∧
          n ≠ "" ∧ k = shortNameOf n := by
  intro items
  induction items with
  | nil => intro avail k h; exact Or.inl h
  | cons item rest ih =>
    intro avail k h
    rcases ih (recordStep avail version item) k h with h' | ⟨item', hmem, hrest⟩
    · rcases recordStep_new_key avail version item k h' with h'' | ⟨n, hx⟩
      · exact Or.inl h''
      · exact Or.inr ⟨item, List.mem_cons_self _ _, n, hx⟩
    · exact Or.inr ⟨item', List.mem_cons_of_mem _ hmem, hrest⟩

/-- Claim C4, as stated, is false: for a discovered name with more
    than one `/` the code records the text after the FIRST `/`
    (`name.split("/", 1)[1]`), not the text after the last one. -/
theorem c4_counterexample :
    recordModels [] "v1beta" [⟨some "models/tuned/abc", ["generateContent"]⟩] =
      [("tuned/abc", "v1beta")] ∧
    lookupC (recordModels [] "v1beta"
        [⟨some "models/tuned/abc", ["generateContent"]⟩])
      (specAfterLastSlash "models/tuned/abc") = none := by
  decide

/-- Claim C4 (amended): every catalog key recorded by discovery is
    the substring after the FIRST `/` of the reported name
    (`shortNameOf`), and a key's first-seen API version is never
    overwritten by later recording. -/
theorem discovery_key_first_slash_first_seen (avail : Catalog)
    (version : String) (items : List ModelItem) :
    (∀ k, lookupC avail k ≠ none →
      lookupC (recordModels avail version items) k = lookupC avail k) ∧
    (∀ k, lookupC (recordModels avail version items) k ≠ none →
      lookupC avail k ≠ none ∨
        ∃ item ∈ items, ∃ n, item.name = some n ∧
          item.supportedGenerationMethods.contains "generateContent" = true ∧
          n ≠ "" ∧ k = shortNameOf n) :=
  ⟨fun k h => recordModels_preserve version items avail k h,
   fun k h => recordModels_new_key version items avail k h⟩

/-- Witness for C4 (amended): an already-recorded `gemini-2.5-pro`
    from `v1beta` keeps its version when `v1` reports it again. -/
theorem discovery_key_first_slash_first_seen_witness :
    lookupC (recordModels [("gemini-2.5-pro", "v1beta")] "v1"
        [⟨some "models/gemini-2.5-pro", ["generateContent"]⟩])
      "gemini-2.5-pro" = lookupC [("gemini-2.5-pro", "v1beta")] "gemini-2.5-pro" :=
  (discovery_key_first_slash_first_seen [("gemini-2.5-pro", "v1beta")] "v1"
    [⟨some "models/gemini-2.5-pro", ["generateContent"]⟩]).1
    "gemini-2.5-pro" (by decide)

/-! ### Claim C7 -/

/-- `attemptStep` either stops with the trimmed accumulation after
    this single call, or (with budget left) passes on the next
    iteration's outcome, counting this call. -/
theorem attemptStep_cases (result : GeminiCallResult) (chunks : List String)
    (remaining : Nat) (recres : Option (Except GemErr String) × Nat) :
    attemptStep result chunks remaining recres =
      (some (Except.ok (stripS (String.join (chunks ++ [result.text])))), 1) ∨
    (remaining ≠ 0 ∧
      attemptStep result chunks remaining recres = Prod.map id (· + 1) recres) := by
  unfold attemptStep
  split_ifs with h1 h2
  · exact Or.inl rfl
  · exact Or.inl rfl
  · exact Or.inr ⟨h2, rfl⟩

/-- The continuation loop makes at most `remaining` provider calls. -/
theorem attemptLoop_calls_le (provider : GenRequest → Except GemErr GeminiCallResult)
    (v m sp msg : String) (tok : Nat) :
    ∀ (r : Nat) (contents : List Turn) (chunks : List String),
      (attemptLoop provider v m sp msg tok contents chunks r).2 ≤ r := by
  intro r
  induction r with
  | zero => intro contents chunks; simp [attemptLoop]
  | succ r ih =>
    intro contents chunks
    rw [attemptLoop]
    cases hp : provider ⟨v, m, sp, contents, tok⟩ with
    | error e => simp
    | ok result =>
      show (attemptStep result chunks r
        (attemptLoop provider v m sp msg tok
          (continuation_contents msg (String.join (chunks ++ [result.text])))
          (chunks ++ [result.text]) r)).2 ≤ r + 1
      rcases attemptStep_cases result chunks r _ with h | ⟨h0, h⟩
      · rw [h]; omega
      · rw [h]
        simp only [Prod.map_snd]
        exact Nat.succ_le_succ (ih _ _)

/-- When the provider never fails, the continuation loop returns a
    text (never an error, never a fall-through) for any positive
    iteration budget. -/
theorem attemptLoop_total_ok (provider : GenRequest → Except GemErr GeminiCallResult)
    (v m sp msg : String) (tok : Nat)
    (hp : ∀ req, ∃ res, provider req = Except.ok res) :
    ∀ (r : Nat) (contents : List Turn) (chunks : List String), 1 ≤ r →
      ∃ t, (attemptLoop provider v m sp msg tok contents chunks r).1 =
        some (Except.ok t) := by
  intro r
  induction r with
  | zero => intro _ _ h; exact absurd h (by omega)
  | succ r ih =>
    intro contents chunks _
    obtain ⟨res, hres⟩ := hp ⟨v, m, sp, contents, tok⟩
    rw [attemptLoop, hres]
    show ∃ t, (attemptStep res chunks r
      (attemptLoop provider v m sp msg tok
        (continuation_contents msg (String.join (chunks ++ [res.text])))
        (chunks ++ [res.text]) r)).1 = some (Except.ok t)
    rcases attemptStep_cases res chunks r _ with h | ⟨h0, h⟩
    · exact ⟨stripS (String.join (chunks ++ [res.text])), by rw [h]⟩
    · obtain ⟨t, ht⟩ := ih
        (continuation_contents msg (String.join (chunks ++ [res.text])))
        (chunks ++ [res.text]) (Nat.one_le_iff_ne_zero.mpr h0)
      refine ⟨t, ?_⟩
      rw [h]
      simpa using ht

/-- Claim C7: for a single candidate model the continuation loop
    issues at most `max_auto_continuations + 1` generateContent calls,
    and (when the provider keeps answering) returns an accumulated
    text — even if every response is judged truncated. -/
theorem continuation_loop_bounded (provider : GenRequest → Except GemErr GeminiCallResult)
    (version model system_prompt message : String)
    (max_output_tokens maxCont : Nat) :
    (attemptLoop provider version model system_prompt message max_output_tokens
        (initial_contents message) [] (maxCont + 1)).2 ≤ maxCont + 1 ∧
    ((∀ req, ∃ res, provider req = Except.ok res) →
      ∃ t, (attemptLoop provider version model system_prompt message max_output_tokens
          (initial_contents message) [] (maxCont + 1)).1 = some (Except.ok t)) :=
  ⟨attemptLoop_calls_le provider version model system_prompt message
      max_output_tokens (maxCont + 1) (initial_contents message) [],
   fun hp => attemptLoop_total_ok provider version model system_prompt message
      max_output_tokens hp (maxCont + 1) (initial_contents message) []
      (Nat.succ_le_succ (Nat.zero_le maxCont))⟩

/-- Witness for C7: a provider that always reports `MAX_TOKENS` (so
    every response is judged truncated), with 2 permitted
    auto-continuations. -/
theorem continuation_loop_bounded_witness :
    (attemptLoop (fun _ => Except.ok ⟨"texto", some "MAX_TOKENS"⟩) "v1beta"
        "gemini-2.5-flash" "sp" "hola" 100 (initial_contents "hola") [] 3).2 ≤ 3 ∧
    ∃ t, (attemptLoop (fun _ => Except.ok ⟨"texto", some "MAX_TOKENS"⟩) "v1beta"
        "gemini-2.5-flash" "sp" "hola" 100 (initial_contents "hola") [] 3).1 =
      some (Except.ok t) :=
  ⟨(continuation_loop_bounded (fun _ => Except.ok ⟨"texto", some "MAX_TOKENS"⟩)
      "v1beta" "gemini-2.5-flash" "sp" "hola" 100 2).1,
   (continuation_loop_bounded (fun _ => Except.ok ⟨"texto", some "MAX_TOKENS"⟩)
      "v1beta" "gemini-2.5-flash" "sp" "hola" 100 2).2
    (fun _ => ⟨⟨"texto", some "MAX_TOKENS"⟩, rfl⟩)⟩

/-! ### Claim C9 -/

/-- A provider error on the first call ends the continuation loop
    after exactly one call. -/
theorem attemptLoop_first_error (provider : GenRequest → Except GemErr GeminiCallResult)
    (v m sp msg : String) (tok : Nat) (contents : List Turn)
    (chunks : List String) (r : Nat) (e : GemErr)
    (hp : provider ⟨v, m, sp, contents, tok⟩ = Except.error e) :
    attemptLoop provider v m sp msg tok contents chunks (r + 1) =
      (some (Except.error e), 1) := by
  rw [attemptLoop, hp]

/-- When every provider call raises `GeminiAPIError`, the candidate
    loop tries each model exactly once and ends with a 502 whose
    cause is the error of the LAST candidate. -/
theorem tryModels_all_api_errors (provider : GenRequest → Except GemErr GeminiCallResult)
    (s : Settings) (sys msg : String) (emsg : String → String)
    (hp : ∀ req, provider req = Except.error (GemErr.apiError (emsg req.model))) :
    ∀ (models : List String) (avail : Catalog) (lastErr : Option GemErr) (m : String),
      models.getLast? = some m →
      tryModels provider s sys msg models avail lastErr =
        (.badGateway (some (.apiError (emsg m))), models.length) := by
  intro models
  induction models with
  | nil => intro avail lastErr m h; simp at h
  | cons model rest ih =>
    intro avail lastErr m h
    rw [tryModels,
      attemptLoop_first_error provider _ model sys msg s.gemini_max_output_tokens
        (initial_contents msg) [] s.gemini_max_auto_continuations
        (GemErr.apiError (emsg model))
        (hp ⟨versionFor avail s.gemini_api_version_hint model, model, sys,
          initial_contents msg, s.gemini_max_output_tokens⟩)]
    cases rest with
    | nil =>
      simp at h
      subst h
      simp [tryModels]
    | cons a t =>
      rw [List.getLast?_cons_cons] at h
      simp only [ih avail (some (GemErr.apiError (emsg model))) m h]
      simp [Nat.add_comm]

/-- Witness for C9: two candidates, a provider that always raises
    `GeminiAPIError`; the 502 carries the last candidate's error and
    exactly two calls are made. -/
theorem tryModels_all_api_errors_witness :
    tryModels (fun req => Except.error (GemErr.apiError ("fallo " ++ req.model)))
      ⟨some "k", "https://g", none, none, none, 100, 3, none⟩ "sp" "hola"
      ["gemini-2.5-flash", "gemini-2.5-pro"] [] none =
      (.badGateway (some (.apiError ("fallo " ++ "gemini-2.5-pro"))), 2) :=
  tryModels_all_api_errors
    (fun req => Except.error (GemErr.apiError ("fallo " ++ req.model)))
    ⟨some "k", "https://g", none, none, none, 100, 3, none⟩ "sp" "hola"
    (fun s => "fallo " ++ s) (fun _ => rfl)
    ["gemini-2.5-flash", "gemini-2.5-pro"] [] none "gemini-2.5-pro" rfl

/-! ### Candidate-list lemmas (claims C5 and C10) -/

theorem insertStr_length (x : String) : ∀ l : List String,
    (insertStr x l).length = l.length + 1 := by
  intro l
  induction l with
  | nil => rfl
  | cons y ys ih =>
    unfold insertStr
    split_ifs <;> simp [ih]

theorem sortStrings_length (l : List String) :
    (sortStrings l).length = l.length := by
  induction l with
  | nil => rfl
  | cons c t ih =>
    show (insertStr c (sortStrings t)).length = t.length + 1
    rw [insertStr_length, ih]

theorem foldl_dedupAppend_prefix (l : List String) :
    ∀ ord : List String, ord <+: l.foldl dedupAppend ord := by
  induction l with
  | nil => intro ord; exact List.prefix_refl _
  | cons c ls ih =>
    intro ord
    have h1 : ord <+: dedupAppend ord c := by
      unfold dedupAppend
      split_ifs
      · exact List.prefix_refl _
      · exact List.prefix_append _ _
    exact h1.trans (ih _)

theorem foldl_dedupAppend_ne_nil (l : List String) (ord : List String)
    (h : ord ≠ [] ∨ l ≠ []) : l.foldl dedupAppend ord ≠ [] := by
  rcases h with h | h
  · intro hE
    have hp := foldl_dedupAppend_prefix l ord
    rw [hE] at hp
    exact h (List.prefix_nil.mp hp)
  · cases l with
    | nil => exact absurd rfl h
    | cons c ls =>
      intro hE
      have hp := foldl_dedupAppend_prefix ls (dedupAppend ord c)
      rw [show (c :: ls).foldl dedupAppend ord = ls.foldl dedupAppend (dedupAppend ord c)
        from rfl] at hE
      rw [hE] at hp
      have h0 : dedupAppend ord c = [] := List.prefix_nil.mp hp
      unfold dedupAppend at h0
      split_ifs at h0 with hc
      · rw [h0] at hc; simp at hc
      · exact absurd h0 (by simp)

theorem foldl_dedupAppend_nodup (l : List String) :
    ∀ ord : List String, ord.Nodup → (l.foldl dedupAppend ord).Nodup := by
  induction l with
  | nil => intro ord h; exact h
  | cons c ls ih =>
    intro ord h
    apply ih
    unfold dedupAppend
    split_ifs with hc
    · exact h
    · have hnm : c ∉ ord := by simpa using hc
      simp [List.nodup_append, h, hnm]

theorem availFilterStep_eq (names ord : List String) (c : String) :
    availFilterStep names ord c =
      if names.isEmpty then dedupAppend ord c
      else if names.contains c then dedupAppend ord c else ord := by
  unfold availFilterStep
  by_cases hn : names.isEmpty <;> by_cases hc : names.contains c <;>
    simp [hn, hc]

theorem foldl_filterStep_eq (names : List String) (l : List String) :
    ∀ ord : List String,
      l.foldl (availFilterStep names) ord =
        (maybeFilter names l).foldl dedupAppend ord := by
  induction l with
  | nil => intro ord; simp [maybeFilter]
  | cons c ls ih =>
    intro ord
    rw [List.foldl_cons, ih, availFilterStep_eq]
    by_cases hn : names.isEmpty
    · simp [maybeFilter, hn]
    · by_cases hc : names.contains c
      · have hc' : c ∈ names := by simpa using hc
        simp [maybeFilter, hn, hc, hc', List.filter_cons]
      · have hc' : c ∉ names := by simpa using hc
        simp [maybeFilter, hn, hc, hc', List.filter_cons]

theorem add_with_aliases_eq (names ord : List String) (nm : Option String) :
    add_with_aliases names ord nm =
      (maybeFilter names (expand_aliases nm)).foldl dedupAppend ord :=
  foldl_filterStep_eq names (expand_aliases nm) ord

theorem maybeFilter_append (names l1 l2 : List String) :
    maybeFilter names (l1 ++ l2) = maybeFilter names l1 ++ maybeFilter names l2 := by
  unfold maybeFilter
  split_ifs <;> simp [List.filter_append]

theorem fold_fallback_flat (names : List String) (L : List String) :
    ∀ ord : List String,
      L.foldl (fun o f => add_with_aliases names o (some f)) ord =
        (maybeFilter names (L.flatMap (fun f => expand_aliases (some f)))).foldl
          dedupAppend ord := by
  induction L with
  | nil => intro ord; simp [maybeFilter]
  | cons a L ih =>
    intro ord
    rw [List.foldl_cons, ih, add_with_aliases_eq,
      show (a :: L).flatMap (fun f => expand_aliases (some f)) =
        expand_aliases (some a) ++ L.flatMap (fun f => expand_aliases (some f))
        from rfl,
      maybeFilter_append, List.foldl_append]

theorem mainPhase_eq (p d : Option String) (names : List String) :
    mainPhase p d names = dedupFirst (filteredSource p d names) := by
  unfold mainPhase dedupFirst filteredSource sourceSeq
  rw [fold_fallback_flat, add_with_aliases_eq, add_with_aliases_eq,
    maybeFilter_append, maybeFilter_append, List.foldl_append, List.foldl_append]

theorem mainPhase_nodup (p d : Option String) (names : List String) :
    (mainPhase p d names).Nodup := by
  rw [mainPhase_eq]
  exact foldl_dedupAppend_nodup _ [] List.nodup_nil

theorem sortedCatalogPhase_ne_nil (names ord : List String) (h : ord ≠ []) :
    sortedCatalogPhase names ord = ord := by
  unfold sortedCatalogPhase
  rw [if_neg]
  simp [h]

theorem sortedCatalogPhase_nodup (names ord : List String) (h : ord.Nodup) :
    (sortedCatalogPhase names ord).Nodup := by
  unfold sortedCatalogPhase
  split_ifs
  · exact foldl_dedupAppend_nodup _ _ h
  · exact h

theorem finalPhase_ne_nil (ord : List String) (h : ord ≠ []) :
    finalPhase ord = ord := by
  unfold finalPhase
  rw [if_neg]
  simp [h]

theorem fallbackPhase_nodup (ord : List String) (h : ord.Nodup) :
    (fallbackPhase ord).Nodup := by
  unfold fallbackPhase
  generalize DEFAULT_MODEL_ORDER = L
  induction L generalizing ord with
  | nil => exact h
  | cons a L ih => exact ih _ (foldl_dedupAppend_nodup _ _ h)

/-- `_build_candidate_list` never returns an empty list: with an
    empty catalog the fallback phase adds the built-in order
    unfiltered, and with a non-empty catalog the sorted-catalog
    branch fills an otherwise empty result. -/
theorem build_candidate_list_ne_nil (p d : Option String) (avail : Catalog) :
    build_candidate_list p d avail ≠ [] := by
  unfold build_candidate_list
  by_cases h3 : mainPhase p d (availKeys avail) = []
  · by_cases hn : (availKeys avail).isEmpty
    · exfalso
      have hsrc : sourceSeq p d ≠ [] := by
        unfold sourceSeq
        intro hE
        rw [List.append_eq_nil] at hE
        have hflat : DEFAULT_MODEL_ORDER.flatMap
            (fun f => expand_aliases (some f)) ≠ [] := by decide
        exact hflat hE.2
      have hfil : filteredSource p d (availKeys avail) = sourceSeq p d := by
        unfold filteredSource maybeFilter
        rw [if_pos hn]
      have hne := foldl_dedupAppend_ne_nil (filteredSource p d (availKeys avail)) []
        (Or.inr (by rw [hfil]; exact hsrc))
      rw [mainPhase_eq] at h3
      unfold dedupFirst at h3
      exact hne h3
    · rw [h3]
      have hb : (availKeys avail).isEmpty = false := by
        simpa using hn
      have hs : sortedCatalogPhase (availKeys avail) [] =
          (sortStrings (availKeys avail)).foldl dedupAppend [] := by
        unfold sortedCatalogPhase
        rw [if_pos]
        simp [hb]
      rw [hs]
      have hsort : sortStrings (availKeys avail) ≠ [] := by
        intro hE
        have hlen := sortStrings_length (availKeys avail)
        rw [hE] at hlen
        have h0 : availKeys avail = [] := List.length_eq_zero.mp hlen.symm
        rw [h0] at hb
        simp at hb
      have hne := foldl_dedupAppend_ne_nil (sortStrings (availKeys avail)) []
        (Or.inr hsort)
      rw [finalPhase_ne_nil _ hne]
      exact hne
  · rw [sortedCatalogPhase_ne_nil _ _ h3, finalPhase_ne_nil _ h3]
    exact h3

/-- The candidate loop only ever yields a reply or a 502, never a
    503: the service-unavailable outcomes are decided before it. -/
theorem tryModels_not_unavailable (provider : GenRequest → Except GemErr GeminiCallResult)
    (s : Settings) (sys msg dtl : String) :
    ∀ (models : List String) (avail : Catalog) (lastErr : Option GemErr),
      (tryModels provider s sys msg models avail lastErr).1 ≠
        ResolverOutcome.serviceUnavailable dtl := by
  intro models
  induction models with
  | nil =>
    intro avail lastErr h
    simp [tryModels] at h
  | cons model rest ih =>
    intro avail lastErr
    rw [tryModels]
    rcases ho : attemptLoop provider (versionFor avail s.gemini_api_version_hint model)
      model sys msg s.gemini_max_output_tokens (initial_contents msg) []
      (s.gemini_max_auto_continuations + 1) with ⟨o, n⟩
    match o with
    | none =>
      show (tryModels provider s sys msg rest avail lastErr).1 ≠ _
      exact ih avail lastErr
    | some (Except.ok t) =>
      exact fun h => ResolverOutcome.noConfusion h
    | some (Except.error (GemErr.modelNotFound m0)) =>
      show (tryModels provider s sys msg rest
        (avail.filter (fun kv => kv.1 ≠ model)) (some (GemErr.modelNotFound m0))).1 ≠ _
      exact ih _ _
    | some (Except.error (GemErr.apiError m0)) =>
      show (tryModels provider s sys msg rest avail (some (GemErr.apiError m0))).1 ≠ _
      exact ih _ _

/-- Claim C10: `_build_candidate_list` always returns a non-empty
    list (even for an empty catalog), so the 503 branch of
    `get_gemini_reply` for an empty candidate list is unreachable. -/
theorem candidate_list_never_empty (p d : Option String) (avail : Catalog) :
    build_candidate_list p d avail ≠ [] ∧
    ∀ (discover : String → String → Option String → Catalog × Nat)
      (provider : GenRequest → Except GemErr GeminiCallResult)
      (s : Settings) (sp msg : String),
      (get_gemini_reply discover provider s sp msg).1 ≠
        ResolverOutcome.serviceUnavailable DETAIL_NO_MODELS := by
  refine ⟨build_candidate_list_ne_nil p d avail, ?_⟩
  intro discover provider s sp msg
  unfold get_gemini_reply
  cases hk : s.gemini_api_key with
  | none =>
    intro h
    injection h with h2
    exact absurd h2 (by decide)
  | some k =>
    show ((if k = "" then (ResolverOutcome.serviceUnavailable DETAIL_NO_KEY, 0)
      else get_gemini_reply_keyed discover provider s sp msg k)).1 ≠ _
    by_cases hk0 : k = ""
    · rw [if_pos hk0]
      intro h
      injection h with h2
      exact absurd h2 (by decide)
    · rw [if_neg hk0]
      unfold get_gemini_reply_keyed
      have hne := build_candidate_list_ne_nil s.gemini_chat_model
        s.gemini_default_model (discover k s.gemini_api_base s.gemini_api_version_hint).1
      rw [if_neg (by simpa using hne)]
      exact tryModels_not_unavailable provider s _ msg DETAIL_NO_MODELS _ _ none

/-- Claim C5: `_build_candidate_list` never contains duplicates, and
    whenever the filtered preferred → default → fallback source
    sequence is non-empty the result is exactly its first-occurrence
    de-duplication — sources in order, each name kept at its first
    appearance. -/
theorem build_candidate_list_nodup_first_seen (p d : Option String) (avail : Catalog) :
    (build_candidate_list p d avail).Nodup ∧
    (filteredSource p d (availKeys avail) ≠ [] →
      build_candidate_list p d avail =
        dedupFirst (filteredSource p d (availKeys avail))) := by
  constructor
  · unfold build_candidate_list finalPhase
    split_ifs
    · exact fallbackPhase_nodup _
        (sortedCatalogPhase_nodup _ _ (mainPhase_nodup p d _))
    · exact sortedCatalogPhase_nodup _ _ (mainPhase_nodup p d _)
  · intro hne
    have h3 : mainPhase p d (availKeys avail) =
        dedupFirst (filteredSource p d (availKeys avail)) := mainPhase_eq p d _
    have hmne : mainPhase p d (availKeys avail) ≠ [] := by
      rw [h3]
      unfold dedupFirst
      exact foldl_dedupAppend_ne_nil _ [] (Or.inr hne)
    unfold build_candidate_list
    rw [sortedCatalogPhase_ne_nil _ _ hmne, finalPhase_ne_nil _ hmne, h3]

/-- Witness for C5: a preferred alias with a two-entry catalog. -/
theorem build_candidate_list_nodup_first_seen_witness :
    (build_candidate_list (some "gemini-pro") none
      [("gemini-2.5-pro", "v1beta"), ("gemini-2.5-flash", "v1")]).Nodup ∧
    build_candidate_list (some "gemini-pro") none
      [("gemini-2.5-pro", "v1beta"), ("gemini-2.5-flash", "v1")] =
      dedupFirst (filteredSource (some "gemini-pro") none
        (availKeys [("gemini-2.5-pro", "v1beta"), ("gemini-2.5-flash", "v1")])) :=
  ⟨(build_candidate_list_nodup_first_seen (some "gemini-pro") none
      [("gemini-2.5-pro", "v1beta"), ("gemini-2.5-flash", "v1")]).1,
   (build_candidate_list_nodup_first_seen (some "gemini-pro") none
      [("gemini-2.5-pro", "v1beta"), ("gemini-2.5-flash", "v1")]).2 (by decide)⟩

/-- Witness for C10: an empty catalog still yields candidates. -/
theorem candidate_list_never_empty_witness :
    build_candidate_list none none [] ≠ [] :=
  (candidate_list_never_empty none none []).1

/-! ### Claim C2 -/

/-- The head survivor of a `dropWhile` fails the predicate. -/
theorem head_dropWhile_false (p : Char → Bool) :
    ∀ (l : List Char) (c : Char), (l.dropWhile p).head? = some c → p c = false := by
  intro l
  induction l with
  | nil => intro c h; simp [List.dropWhile] at h
  | cons a t ih =>
    intro c h
    by_cases hp : p a
    · rw [List.dropWhile_cons_of_pos hp] at h
      exact ih c h
    · rw [List.dropWhile_cons_of_neg hp] at h
      simp at h
      rw [← h]
      simpa using hp

/-- The last character of an rstripped string is not whitespace. -/
theorem pyRstrip_getLast_not_space (l : List Char) (c : Char)
    (h : (pyRstrip l).getLast? = some c) : pyIsSpace c = false := by
  unfold pyRstrip at h
  rw [List.getLast?_reverse] at h
  exact head_dropWhile_false pyIsSpace l.reverse c h

/-- Every splitlines break character is Python whitespace. -/
theorem isLineBreak_isSpace (c : Char) (h : isLineBreak c = true) :
    pyIsSpace c = true := by
  simp only [isLineBreak, Bool.or_eq_true, decide_eq_true_eq] at h
  rcases h with ((((((((h | h) | h) | h) | h) | h) | h) | h) | h) | h <;>
    subst h <;> decide

/-- `lastLine` keeps the final character when it is not whitespace. -/
theorem lastLine_getLast (l : List Char) (c : Char)
    (h : l.getLast? = some c) (hs : pyIsSpace c = false) :
    (lastLine l).getLast? = some c := by
  unfold lastLine
  rw [List.getLast?_reverse]
  rw [← List.head?_reverse] at h
  cases hrev : l.reverse with
  | nil => rw [hrev] at h; simp at h
  | cons a t =>
    rw [hrev] at h
    simp at h
    subst h
    have hbr : isLineBreak a = false := by
      cases hq : isLineBreak a
      · rfl
      · rw [isLineBreak_isSpace a hq] at hs; cases hs
    rw [List.takeWhile_cons_of_pos (by simp [hbr])]
    rfl

/-- `rstrip` is the identity when the last character is not
    whitespace. -/
theorem pyRstrip_id_of_last_not_space (l : List Char) (c : Char)
    (h : l.getLast? = some c) (hs : pyIsSpace c = false) : pyRstrip l = l := by
  unfold pyRstrip
  rw [← List.head?_reverse] at h
  cases hrev : l.reverse with
  | nil => rw [hrev] at h; simp at h
  | cons a t =>
    rw [hrev] at h
    simp at h
    subst h
    rw [List.dropWhile_cons_of_neg (by simp [hs]), ← hrev, List.reverse_reverse]

/-- `dropWhile` preserves the last element when the result is
    non-empty. -/
theorem getLast_dropWhile (p : Char → Bool) (l : List Char) (c : Char)
    (h : (l.dropWhile p).getLast? = some c) : l.getLast? = some c := by
  obtain ⟨t, ht⟩ := List.dropWhile_suffix p (l := l)
  have hne : l.dropWhile p ≠ [] := by
    intro hE; rw [hE] at h; simp at h
  rw [← ht, List.getLast?_append_of_ne_nil _ hne]
  exact h

/-- Claim C2, as stated, is false: an odd number of `**` markers is
    checked before the sentence-ending rule, so a long text whose
    last line ends in `.` is still judged truncated under `STOP`. -/
theorem c2_counterexample :
    80 ≤ (pyStrip ("**Hola estimados hermanos, este es un mensaje de prueba bastante largo que sin duda supera los ochenta caracteres.").data).length ∧
    (pyStrip (lastLine (pyRstrip ("**Hola estimados hermanos, este es un mensaje de prueba bastante largo que sin duda supera los ochenta caracteres.").data))).getLast? = some '.' ∧
    needs_continuation ("**Hola estimados hermanos, este es un mensaje de prueba bastante largo que sin duda supera los ochenta caracteres.").data (some "STOP".data) = true := by
  refine ⟨by decide, by decide, by decide⟩

/-- Claim C2 (amended): `_needs_continuation(text, "STOP")` is false
    for a text of trimmed length ≥ 80 whose last line ends with `.`,
    `!` or `?`, PROVIDED the text also has an even number of `**`
    markers, an even number of back-ticks, and no open-list match —
    those earlier heuristic rules would otherwise still fire. -/
theorem c2_sentence_end_no_continuation (text : List Char) (c : Char)
    (h80 : 80 ≤ (pyStrip text).length)
    (hlast : (pyStrip (lastLine (pyRstrip text))).getLast? = some c)
    (hc : c = '.' ∨ c = '!' ∨ c = '?')
    (hstar : countDoubleStar (pyRstrip text) % 2 = 0)
    (htick : (pyRstrip text).count (Char.ofNat 96) % 2 = 0)
    (hlist : openListMatch (pyRstrip text) = false) :
    needs_continuation text (some "STOP".data) = false := by
  have hstripne : pyRstrip text ≠ [] := by
    intro hE
    unfold pyStrip at h80
    rw [hE] at h80
    simp [pyLstrip] at h80
  obtain ⟨z, hz⟩ : ∃ z, (pyRstrip text).getLast? = some z := by
    cases hq : (pyRstrip text).getLast? with
    | none => exact absurd (List.getLast?_eq_none_iff.mp hq) hstripne
    | some z => exact ⟨z, rfl⟩
  have hzs : pyIsSpace z = false := pyRstrip_getLast_not_space text z hz
  have hll : (lastLine (pyRstrip text)).getLast? = some z :=
    lastLine_getLast _ z hz hzs
  have hrs : pyRstrip (lastLine (pyRstrip text)) = lastLine (pyRstrip text) :=
    pyRstrip_id_of_last_not_space _ z hll hzs
  have hcz : z = c := by
    unfold pyStrip at hlast
    rw [hrs] at hlast
    have h2 := getLast_dropWhile pyIsSpace _ c hlast
    rw [hll] at h2
    injection h2
  subst hcz
  have hterm : z ∈ TERMINATORS := by
    rcases hc with h|h|h <;> subst h <;> decide
  have hdang : z ∉ DANGLING := by
    rcases hc with h|h|h <;> subst h <;> decide
  have hie : (pyRstrip text).isEmpty = false := by
    rcases hq : pyRstrip text with _ | ⟨a, t⟩
    · exact absurd hq hstripne
    · rfl
  have hlooks : looks_like_truncated_markdown text = false := by
    unfold looks_like_truncated_markdown
    rw [hz, hlast]
    rw [if_neg (by simp [hie]), if_neg (by omega), if_neg (by omega),
      if_neg (by simp [hlist])]
    rw [if_neg (by simp [hdang])]
    simp [hterm]
  unfold needs_continuation
  rw [if_neg (by decide), if_neg (by decide)]
  rw [if_neg (by omega)]
  exact hlooks

/-- Witness for C2 (amended): a long pastoral reply ending in a full
    stop, with balanced markers. -/
theorem c2_sentence_end_no_continuation_witness :
    needs_continuation ("Queridos hermanos, gracias por su mensaje y por compartir; que la paz del Señor los acompañe siempre hoy.").data (some "STOP".data) = false :=
  c2_sentence_end_no_continuation
    ("Queridos hermanos, gracias por su mensaje y por compartir; que la paz del Señor los acompañe siempre hoy.").data
    '.' (by decide) (by decide) (Or.inl rfl) (by decide) (by decide) (by decide)
